import Mathlib

/-!
# Verification of the 2048-style board-mutation engine

Shallow embedding of the game-logic functions of `src/App.tsx`
(types from `src/types/statetypes.ts`) and proofs of the specified
properties.

Modelling conventions:
* a JS `number | null` cell is `Option Int` (`null` is `none`);
* JS array indexing `a[i]` inside the game logic is modelled with
  `List.getD` (the code only indexes in bounds on the paths we verify),
  except for the unconditional `map[0].length` read in
  `rotateMapCounterClockwise`, which throws a TypeError on an empty
  grid (`map[0]` is `undefined`) and is modelled by `Except.error`;
* the `throw` in `moveMapIn2048Rule` and the TypeError thrown by
  `rotateMapCounterClockwise` are modelled with `Except String`;
* the two random draws of `addRandomTile` (`getRandomInt(empty.length)`
  and `Math.random() < 0.9 ? 2 : 4`) are injected as parameters: a
  natural number reduced modulo the number of empty cells, and a
  boolean coin deciding between the values 2 and 4.
-/

namespace Game2048

/-- `type Cell = number | null` from `statetypes.ts`. -/
abbrev Cell := Option Int

/-- `type Map2048 = Cell[][]` from `statetypes.ts`. -/
abbrev Map2048 := List (List Cell)

/-- `type Direction = "up" | "left" | "right" | "down"` from `statetypes.ts`. -/
inductive Direction where
  | up | left | right | down
deriving DecidableEq

/-- The four rotation angles `0 | 90 | 180 | 270` used by `App.tsx`. -/
inductive Degree where
  | d0 | d90 | d180 | d270
deriving DecidableEq

/-- `rotateDegreeMap` from `App.tsx`: the forward rotation of each direction. -/
def rotateDegreeMap : Direction → Degree
  | .up => .d90
  | .right => .d180
  | .down => .d270
  | .left => .d0

/-- `revertDegreeMap` from `App.tsx`: the inverse rotation of each direction. -/
def revertDegreeMap : Direction → Degree
  | .up => .d270
  | .right => .d180
  | .down => .d90
  | .left => .d0

/-- `type MoveResult = { result: Map2048; isMoved: boolean }` from `statetypes.ts`. -/
structure MoveResult where
  result : Map2048
  isMoved : Bool
deriving DecidableEq

/-- Cell access `map[i][j]`: on the verified paths all indexing is in
bounds, out-of-bounds access is defaulted to an empty cell. -/
def get2 (map : Map2048) (i j : Nat) : Cell :=
  (map.getD i []).getD j none

/-- `validateMapIsNByM` from `App.tsx`: every row has the length of the
first row.  (The source reads `map[0].length`; grids are non-empty by
the §3 invariant, for `[]` we return `true` vacuously.) -/
def validateMapIsNByM (map : Map2048) : Bool :=
  map.all (fun row => row.length = (map.headD []).length)

/-- The `switch` body of `rotateMapCounterClockwise` from `App.tsx`,
for the case where the two `const` reads `rowLength = map.length` and
`columnLength = map[0].length` have succeeded: on a non-empty grid
`map[0]` is the first row, so `columnLength` is `(map.headD []).length`. -/
def rotateMapBody (map : Map2048) (degree : Degree) : Map2048 :=
  let rowLength := map.length
  let columnLength := (map.headD []).length
  match degree with
  | .d0 => map
  | .d90 =>
      (List.range columnLength).map (fun columnIndex =>
        (List.range rowLength).map (fun rowIndex =>
          get2 map rowIndex (columnLength - columnIndex - 1)))
  | .d180 =>
      (List.range rowLength).map (fun rowIndex =>
        (List.range columnLength).map (fun columnIndex =>
          get2 map (rowLength - rowIndex - 1) (columnLength - columnIndex - 1)))
  | .d270 =>
      (List.range columnLength).map (fun columnIndex =>
        (List.range rowLength).map (fun rowIndex =>
          get2 map (rowLength - rowIndex - 1) columnIndex))

/-- `rotateMapCounterClockwise` from `App.tsx`: rotates the grid
counter-clockwise by the given angle, via `Array.from` index mappings.
The function reads `map[0].length` before the `switch`, for every
angle; on an empty grid `map[0]` is `undefined`, so that read throws a
TypeError, modelled here by the `Except.error` branch. -/
def rotateMapCounterClockwise (map : Map2048) (degree : Degree) :
    Except String Map2048 :=
  if map = [] then .error "TypeError: cannot read length of map[0]"
  else .ok (rotateMapBody map degree)

/-- The accumulator of the `reduce` inside `moveRowLeft`:
`{ lastCell: number | null; result: (number | null)[] }`.  The code only
ever pushes numbers onto `result`, so we give it type `List Int`. -/
structure RowAcc where
  lastCell : Option Int
  result : List Int
deriving DecidableEq

/-- One step of the `reduce` inside `moveRowLeft`. -/
def moveRowLeftStep (acc : RowAcc) (cell : Cell) : RowAcc :=
  match cell with
  | none => acc
  | some v =>
    match acc.lastCell with
    | none => { acc with lastCell := some v }
    | some last =>
      if last = v then { result := acc.result ++ [v * 2], lastCell := none }
      else { result := acc.result ++ [last], lastCell := some v }

/-- The result record of `moveRowLeft`: `{ result; isMoved }`. -/
structure RowMoveResult where
  result : List Cell
  isMoved : Bool
deriving DecidableEq

/-- `moveRowLeft` from `App.tsx` (the Row Collapser / `collapseRowLeft`
of the spec): slide a row to the left, merging the first equal adjacent
pair once, padding with `null` to the original length; `isMoved` is the
index-wise comparison `row.some((cell, i) => cell !== resultRow[i])`. -/
def moveRowLeft (row : List Cell) : RowMoveResult :=
  let reduced := row.foldl moveRowLeftStep { lastCell := none, result := [] }
  let result := reduced.result ++ (match reduced.lastCell with
    | none => []
    | some last => [last])
  let resultRow := (List.range row.length).map (fun i => result.get? i)
  { result := resultRow
    isMoved := (List.range row.length).any
      (fun i => row.getD i none ≠ resultRow.getD i none) }

/-- `moveLeft` from `App.tsx`: apply `moveRowLeft` to every row;
`isMoved` iff some row moved. -/
def moveLeft (map : Map2048) : MoveResult :=
  let movedRows := map.map moveRowLeft
  { result := movedRows.map (fun movedRow => movedRow.result)
    isMoved := movedRows.any (fun movedRow => movedRow.isMoved) }

/-- `moveMapIn2048Rule` from `App.tsx` (the Move Engine): validate
rectangularity (throwing otherwise, modelled by `Except.error`), rotate
forward, slide left, rotate back.  Either rotation can itself throw the
TypeError of `rotateMapCounterClockwise`, which propagates. -/
def moveMapIn2048Rule (map : Map2048) (direction : Direction) :
    Except String MoveResult :=
  if ¬ validateMapIsNByM map then .error "Map is not N by M"
  else
    match rotateMapCounterClockwise map (rotateDegreeMap direction) with
    | .error e => .error e
    | .ok rotatedMap =>
      let moved := moveLeft rotatedMap
      match rotateMapCounterClockwise moved.result (revertDegreeMap direction) with
      | .error e => .error e
      | .ok back => .ok { result := back, isMoved := moved.isMoved }

/-- The list of empty-cell coordinates built by the double `forEach` in
`addRandomTile`, in row-major order. -/
def emptyCells (map : Map2048) : List (Nat × Nat) :=
  (List.range map.length).flatMap (fun i =>
    (List.range (map.getD i []).length).filterMap (fun j =>
      if (map.getD i []).getD j none = none then some (i, j) else none))

/-- The `newMap` construction inside `addRandomTile`: copy the grid,
replacing the cell at `(i, j)` by `some v`. -/
def setCell (map : Map2048) (i j : Nat) (v : Int) : Map2048 :=
  map.mapIdx (fun r row => row.mapIdx (fun c cell =>
    if r = i ∧ c = j then some v else cell))

/-- `addRandomTile` from `App.tsx` (the Tile Spawner / `spawn` of the
spec).  The random draws are injected: `k % empty.length` models
`getRandomInt(empty.length)` (covering every possible draw as `k`
ranges over `Nat`), and `coin` models `Math.random() < 0.9`, choosing
value 2 on `true` and 4 on `false`. -/
def addRandomTile (k : Nat) (coin : Bool) (map : Map2048) : Map2048 :=
  let empty := emptyCells map
  if empty.length = 0 then map
  else
    let ij := empty.getD (k % empty.length) (0, 0)
    let value : Int := if coin then 2 else 4
    setCell map ij.1 ij.2 value

/-- `checkGameOver` from `App.tsx`: `map.flat().includes(128)`. -/
def checkGameOver (map : Map2048) : Bool :=
  map.flatten.contains (some (128 : Int))

/-- The state owned by the `App` component: the current grid (`map`
`useState`) and the undo stack (`undoHistory` `useState`). -/
structure GameState where
  map : Map2048
  undoHistory : List Map2048
deriving DecidableEq

/-- `handleKey` from `App.tsx` for a recognised arrow key (the
`applyMove` operation of the spec): no-op when the game is over;
otherwise run the move engine, and if the grid changed push the
previous grid onto the history and adopt the spawned-on result.  A
thrown shape error aborts the handler before any state update, so the
`Except.error` case leaves the state unchanged. -/
def applyMove (k : Nat) (coin : Bool) (s : GameState) (direction : Direction) :
    GameState :=
  if checkGameOver s.map then s
  else
    match moveMapIn2048Rule s.map direction with
    | .error _ => s
    | .ok moved =>
        if moved.isMoved then
          { map := addRandomTile k coin moved.result
            undoHistory := s.undoHistory ++ [s.map] }
        else s

/-- `handleUndo` from `App.tsx` (the `undo` operation of the spec):
no-op on an empty history, otherwise adopt the most recent snapshot
(`undoHistory[undoHistory.length - 1]`) and drop it (`slice(0, -1)`). -/
def handleUndo (s : GameState) : GameState :=
  if s.undoHistory.length = 0 then s
  else
    { map := s.undoHistory.getD (s.undoHistory.length - 1) []
      undoHistory := s.undoHistory.dropLast }

/-- Proof device: the grid whose entry at `(i, j)` is `f i j`, with `R`
rows of `C` cells.  Rotations of rectangular grids are computed through
this normal form. -/
def mkGrid (R C : Nat) (f : Nat → Nat → Cell) : Map2048 :=
  (List.range R).map (fun i => (List.range C).map (f i))

section Lemmas

lemma getElem?_mapIdx {α β : Type} (l : List α) (f : Nat → α → β) (i : Nat) :
    (l.mapIdx f)[i]? = l[i]?.map (f i) := by
  rw [List.mapIdx_eq_ofFn, List.getElem?_ofFn]
  by_cases h : i < l.length
  · simp [List.ofFnNthVal, h, List.getElem?_eq_getElem]
  · simp [List.ofFnNthVal, h, List.getElem?_eq_none (Nat.le_of_not_lt h)]

lemma length_mkGrid (R C : Nat) (f : Nat → Nat → Cell) :
    (mkGrid R C f).length = R := by
  simp [mkGrid]

lemma headD_mkGrid (R C : Nat) (f : Nat → Nat → Cell) (hR : 0 < R) :
    (mkGrid R C f).headD [] = (List.range C).map (f 0) := by
  obtain ⟨R', rfl⟩ := Nat.exists_eq_succ_of_ne_zero (Nat.pos_iff_ne_zero.mp hR)
  simp [mkGrid, List.range_succ_eq_map]

lemma get2_mkGrid (R C : Nat) (f : Nat → Nat → Cell) {i j : Nat}
    (hi : i < R) (hj : j < C) : get2 (mkGrid R C f) i j = f i j := by
  have h1 : (mkGrid R C f).getD i [] = (List.range C).map (f i) := by
    rw [List.getD_eq_getElem?_getD]
    simp [mkGrid, List.getElem?_map, List.getElem?_range hi]
  rw [get2, h1, List.getD_eq_getElem?_getD]
  simp [List.getElem?_map, List.getElem?_range hj]

lemma mkGrid_congr {R C : Nat} {f g : Nat → Nat → Cell}
    (h : ∀ i < R, ∀ j < C, f i j = g i j) : mkGrid R C f = mkGrid R C g := by
  unfold mkGrid
  refine List.map_congr_left (fun i hi => List.map_congr_left (fun j hj => ?_))
  exact h i (List.mem_range.mp hi) j (List.mem_range.mp hj)

/-- A rectangular non-empty grid is its own `mkGrid` normal form. -/
lemma grid_eq_mkGrid {m : Map2048} (h : validateMapIsNByM m = true) :
    m = mkGrid m.length ((m.headD []).length) (get2 m) := by
  have hrows : ∀ row ∈ m, row.length = (m.headD []).length := by
    intro row hrow
    simpa using (List.all_eq_true.mp h) row hrow
  refine List.ext_getElem (by simp [length_mkGrid]) (fun i hi hi' => ?_)
  have hilen : i < m.length := hi
  have hrowlen : m[i].length = (m.headD []).length :=
    hrows _ (List.getElem_mem hilen)
  refine List.ext_getElem ?_ (fun j hj hj' => ?_)
  · simp [mkGrid, List.getElem_map, List.getElem_range, hrowlen]
  · have hjC : j < (m.headD []).length := by
      simpa [hrowlen] using hj
    have : get2 m i j = m[i][j] := by
      rw [get2, List.getD_eq_getElem m [] hilen,
        List.getD_eq_getElem _ none hj]
    simp [mkGrid, List.getElem_map, List.getElem_range, this]

/-- Rotating a `mkGrid` by 90° counter-clockwise. -/
lemma rotate90_mkGrid (R C : Nat) (f : Nat → Nat → Cell) (hR : 0 < R) :
    rotateMapBody (mkGrid R C f) .d90 =
      mkGrid C R (fun c r => get2 (mkGrid R C f) r (C - c - 1)) := by
  have hhead : ((mkGrid R C f).headD []).length = C := by
    rw [headD_mkGrid R C f hR]; simp
  unfold rotateMapBody
  simp only [hhead, length_mkGrid]
  rfl

lemma length_moveRowLeft (row : List Cell) :
    (moveRowLeft row).result.length = row.length := by
  simp [moveRowLeft]

lemma moveRowLeft_isMoved_eq (row : List Cell) :
    (moveRowLeft row).isMoved = (List.range row.length).any
      (fun i => row.getD i none ≠ (moveRowLeft row).result.getD i none) := rfl

lemma moveRowLeft_isMoved_iff (row : List Cell) :
    (moveRowLeft row).isMoved = true ↔ (moveRowLeft row).result ≠ row := by
  constructor
  · intro h heq
    rw [moveRowLeft_isMoved_eq, heq] at h
    simp at h
  · intro hne
    by_contra h
    apply hne
    have h' : (List.range row.length).any
        (fun i => row.getD i none ≠ (moveRowLeft row).result.getD i none) = false :=
      Bool.eq_false_iff.mpr (fun hx => h ((moveRowLeft_isMoved_eq row) ▸ hx))
    have hall := List.any_eq_false.mp h'
    refine List.ext_getElem ((length_moveRowLeft row).trans rfl) (fun n h1 h2 => ?_)
    have hmem := hall n (List.mem_range.mpr h2)
    simp only [decide_not, Bool.not_eq_true', decide_eq_false_iff_not, not_not] at hmem
    rw [List.getD_eq_getElem _ _ h2, List.getD_eq_getElem _ _ h1] at hmem
    exact hmem.symm

lemma exists_map_some {l : List Cell} (h : ∀ c ∈ l, c ≠ none) :
    ∃ xs : List Int, l = xs.map some := by
  induction l with
  | nil => exact ⟨[], rfl⟩
  | cons c t ih =>
    obtain ⟨xs, hxs⟩ := ih (fun c hc => h c (List.mem_cons_of_mem _ hc))
    obtain ⟨a, ha⟩ := Option.ne_none_iff_exists'.mp (h c (List.mem_cons_self _ _))
    exact ⟨a :: xs, by rw [ha, hxs]; rfl⟩

/-- Running the collapse fold over a gap-free row whose adjacent values
are pairwise distinct just shifts every value through `lastCell`,
emitting them unchanged. -/
lemma foldl_no_merge (xs : List Int) (a : Int) (res : List Int)
    (h : List.Chain' (fun x y : Int => x ≠ y) (a :: xs)) :
    (xs.map some).foldl moveRowLeftStep { lastCell := some a, result := res } =
      { lastCell := some ((a :: xs).getLast (List.cons_ne_nil a xs)),
        result := res ++ (a :: xs).dropLast } := by
  induction xs generalizing a res with
  | nil => simp [List.dropLast]
  | cons b t ih =>
    have hab : a ≠ b := (List.chain'_cons.mp h).1
    have htail := (List.chain'_cons.mp h).2
    simp only [List.map_cons, List.foldl_cons]
    rw [show moveRowLeftStep { lastCell := some a, result := res } (some b) =
        { lastCell := some b, result := res ++ [a] } from by
      simp [moveRowLeftStep, hab]]
    rw [ih b (res ++ [a]) htail]
    simp [List.getLast_cons, List.dropLast_cons₂]

lemma range_map_get? (l : List Int) :
    (List.range l.length).map (fun i => l.get? i) = l.map some := by
  refine List.ext_getElem (by simp) (fun n h1 h2 => ?_)
  have hn : n < l.length := by simpa using h2
  simp [List.getElem_map, List.getElem_range, List.get?_eq_getElem?,
    List.getElem?_eq_getElem hn]

/-- A gap-free row with no equal adjacent pair is a fixed point of the
Row Collapser and reports `isMoved = false`. -/
lemma moveRowLeft_no_change (row : List Cell)
    (hfull : ∀ c ∈ row, c ≠ none)
    (hchain : List.Chain' (fun x y : Cell => x ≠ y) row) :
    moveRowLeft row = { result := row, isMoved := false } := by
  obtain ⟨xs, rfl⟩ := exists_map_some hfull
  cases xs with
  | nil => rfl
  | cons a t =>
    have hchain' : List.Chain' (fun x y : Int => x ≠ y) (a :: t) := by
      rw [List.chain'_map] at hchain
      exact hchain.imp (fun _ _ hxy he => hxy (by rw [he]))
    have hfold : ((a :: t).map some).foldl moveRowLeftStep
        { lastCell := none, result := [] } =
        { lastCell := some ((a :: t).getLast (List.cons_ne_nil a t)),
          result := (a :: t).dropLast } := by
      simp only [List.map_cons, List.foldl_cons]
      rw [show moveRowLeftStep { lastCell := none, result := [] } (some a) =
          { lastCell := some a, result := [] } from rfl]
      simpa using foldl_no_merge t a [] hchain'
    unfold moveRowLeft
    rw [hfold]
    simp only [List.dropLast_append_getLast, List.length_map]
    rw [show (List.range (a :: t).length).map (fun i => (a :: t).get? i) =
        (a :: t).map some from range_map_get? _]
    simp

lemma mem_emptyCells (m : Map2048) (p : Nat × Nat) :
    p ∈ emptyCells m ↔
      p.1 < m.length ∧ p.2 < (m.getD p.1 []).length ∧ get2 m p.1 p.2 = none := by
  obtain ⟨i, j⟩ := p
  simp only [emptyCells, List.mem_flatMap, List.mem_filterMap, List.mem_range, get2]
  constructor
  · rintro ⟨a, ha, j', hj', hif⟩
    by_cases hc : (m.getD a []).getD j' none = none
    · rw [if_pos hc] at hif
      obtain ⟨rfl, rfl⟩ : a = i ∧ j' = j := by simpa using hif
      exact ⟨ha, hj', hc⟩
    · rw [if_neg hc] at hif
      cases hif
  · rintro ⟨hi, hj, hc⟩
    exact ⟨i, hi, j, hj, by rw [if_pos hc]⟩

lemma length_setCell (m : Map2048) (i j : Nat) (v : Int) :
    (setCell m i j v).length = m.length := by
  simp [setCell, List.length_mapIdx]

lemma getD_setCell_row (m : Map2048) (i j : Nat) (v : Int) (a : Nat) :
    (setCell m i j v).getD a [] =
      (m.getD a []).mapIdx (fun c cell => if a = i ∧ c = j then some v else cell) := by
  rw [List.getD_eq_getElem?_getD, List.getD_eq_getElem?_getD, setCell,
    getElem?_mapIdx]
  cases m[a]? with
  | none => rfl
  | some row => rfl

lemma get2_setCell (m : Map2048) (i j : Nat) (v : Int) (a b : Nat) :
    get2 (setCell m i j v) a b =
      if a = i ∧ b = j ∧ b < (m.getD a []).length then some v
      else get2 m a b := by
  rw [get2, get2, getD_setCell_row]
  set row := m.getD a [] with hrow
  rw [List.getD_eq_getElem?_getD (row.mapIdx _) b, getElem?_mapIdx]
  by_cases hb : b < row.length
  · rw [List.getElem?_eq_getElem hb]
    by_cases hab : a = i ∧ b = j
    · obtain ⟨rfl, rfl⟩ := hab
      simp [hb]
    · simp only [Option.map_some', Option.getD_some]
      rw [if_neg hab, if_neg (by tauto), List.getD_eq_getElem row none hb]
  · rw [List.getElem?_eq_none (Nat.le_of_not_lt hb)]
    rw [if_neg (by tauto), List.getD_eq_getElem?_getD row b,
      List.getElem?_eq_none (Nat.le_of_not_lt hb)]
    rfl

lemma addRandomTile_of_no_empty (k : Nat) (coin : Bool) (m : Map2048)
    (h : emptyCells m = []) : addRandomTile k coin m = m := by
  simp [addRandomTile, h]

/-- On a board with at least one empty cell, the spawner writes the
coin-chosen value into one of the empty cells. -/
lemma addRandomTile_eq_setCell (k : Nat) (coin : Bool) (m : Map2048)
    (hne : emptyCells m ≠ []) :
    ∃ p ∈ emptyCells m, addRandomTile k coin m =
      setCell m p.1 p.2 (if coin then 2 else 4) := by
  have hlen : 0 < (emptyCells m).length := List.length_pos.mpr hne
  have hk : k % (emptyCells m).length < (emptyCells m).length := Nat.mod_lt _ hlen
  refine ⟨(emptyCells m).getD (k % (emptyCells m).length) (0, 0), ?_, ?_⟩
  · rw [List.getD_eq_getElem _ _ hk]
    exact List.getElem_mem _
  · unfold addRandomTile
    rw [if_neg (by omega)]

lemma headD_length {m : Map2048} {C : Nat} (hm : m ≠ [])
    (h : ∀ row ∈ m, row.length = C) : (m.headD []).length = C := by
  cases m with
  | nil => exact absurd rfl hm
  | cons a t => exact h a (List.mem_cons_self a t)

lemma moveLeft_length (m : Map2048) : (moveLeft m).result.length = m.length := by
  simp [moveLeft]

lemma moveLeft_rows {m : Map2048} {C : Nat} (h : ∀ row ∈ m, row.length = C) :
    ∀ row ∈ (moveLeft m).result, row.length = C := by
  intro row hrow
  simp only [moveLeft, List.map_map, List.mem_map] at hrow
  obtain ⟨r, hr, rfl⟩ := hrow
  rw [Function.comp_apply, length_moveRowLeft]
  exact h r hr

lemma length_rotate90 (m : Map2048) :
    (rotateMapBody m .d90).length = (m.headD []).length := by
  simp [rotateMapBody]

lemma rows_rotate90 (m : Map2048) :
    ∀ row ∈ rotateMapBody m .d90, row.length = m.length := by
  intro row hrow
  simp only [rotateMapBody, List.mem_map] at hrow
  obtain ⟨c, hc, rfl⟩ := hrow
  simp

lemma length_rotate180 (m : Map2048) :
    (rotateMapBody m .d180).length = m.length := by
  simp [rotateMapBody]

lemma rows_rotate180 (m : Map2048) :
    ∀ row ∈ rotateMapBody m .d180, row.length = (m.headD []).length := by
  intro row hrow
  simp only [rotateMapBody, List.mem_map] at hrow
  obtain ⟨c, hc, rfl⟩ := hrow
  simp

lemma length_rotate270 (m : Map2048) :
    (rotateMapBody m .d270).length = (m.headD []).length := by
  simp [rotateMapBody]

lemma rows_rotate270 (m : Map2048) :
    ∀ row ∈ rotateMapBody m .d270, row.length = m.length := by
  intro row hrow
  simp only [rotateMapBody, List.mem_map] at hrow
  obtain ⟨c, hc, rfl⟩ := hrow
  simp

lemma rotate_d0 (m : Map2048) : rotateMapBody m .d0 = m := rfl

/-- On a non-empty grid the `map[0].length` read succeeds and
`rotateMapCounterClockwise` returns its `switch` body. -/
lemma rotate_ok {m : Map2048} (hm : m ≠ []) (d : Degree) :
    rotateMapCounterClockwise m d = .ok (rotateMapBody m d) := by
  unfold rotateMapCounterClockwise
  rw [if_neg hm]

/-- On the empty grid `rotateMapCounterClockwise` throws for every
angle, since `map[0].length` is read before the `switch`. -/
lemma rotate_nil_error (d : Degree) :
    rotateMapCounterClockwise [] d =
      .error "TypeError: cannot read length of map[0]" := rfl

end Lemmas

/-- C1: `collapseRowLeft` merges only the first adjacent equal pair in
one pass and never cascades: `[2,2,2,null]` collapses to
`[4,2,null,null]` with `changed = true`, and for any value `v` the row
`[v,v,v]` collapses to `[2v, v]` padded with one empty cell. -/
theorem collapseRowLeft_merges_first_pair_only :
    moveRowLeft [some 2, some 2, some 2, none] =
      { result := [some 4, some 2, none, none], isMoved := true } ∧
    ∀ v : Int, (moveRowLeft [some v, some v, some v]).result =
      [some (v * 2), some v, none] := by
  constructor
  · decide
  · intro v
    simp [moveRowLeft, moveRowLeftStep, List.range_succ]

/-- Four 90° rotation bodies compose to the identity on a rectangular
grid with non-empty rows and columns. -/
lemma rotateMapBody_four_quarter_turns (m : Map2048)
    (hrect : validateMapIsNByM m = true)
    (hR : m ≠ []) (hC : (m.headD []).length ≠ 0) :
    rotateMapBody (rotateMapBody (rotateMapBody
      (rotateMapBody m .d90) .d90) .d90) .d90 = m := by
  have hR0 : 0 < m.length := List.length_pos.mpr hR
  have hC0 : 0 < (m.headD []).length := Nat.pos_of_ne_zero hC
  set R := m.length with hRdef
  set C := (m.headD []).length with hCdef
  have hm : m = mkGrid R C (get2 m) := grid_eq_mkGrid hrect
  have s1 : rotateMapBody m .d90 =
      mkGrid C R (fun c r => get2 m r (C - c - 1)) := by
    conv_lhs => rw [hm]
    rw [rotate90_mkGrid R C (get2 m) hR0]
    exact mkGrid_congr (fun c _ r _ => by rw [← hm])
  have s2 : rotateMapBody (rotateMapBody m .d90) .d90 =
      mkGrid R C (fun i j => get2 m (R - i - 1) (C - j - 1)) := by
    rw [s1, rotate90_mkGrid C R _ hC0]
    refine mkGrid_congr (fun c hc r hr => ?_)
    rw [get2_mkGrid C R _ hr (by omega)]
  have s3 : rotateMapBody (rotateMapBody
      (rotateMapBody m .d90) .d90) .d90 =
      mkGrid C R (fun c r => get2 m (R - r - 1) c) := by
    rw [s2, rotate90_mkGrid R C _ hR0]
    refine mkGrid_congr (fun c hc r hr => ?_)
    rw [get2_mkGrid R C _ hr (by omega)]
    congr 1
    omega
  rw [s3, rotate90_mkGrid C R _ hC0]
  conv_rhs => rw [hm]
  refine mkGrid_congr (fun c hc r hr => ?_)
  rw [get2_mkGrid C R _ hr (by omega)]
  congr 1
  omega

/-- Every quarter turn of the chain succeeds on a rectangular grid with
non-empty rows and columns: each intermediate grid is again non-empty. -/
lemma rotateMapBody_chain_ne_nil (m : Map2048)
    (hR : m ≠ []) (hC : (m.headD []).length ≠ 0) :
    rotateMapBody m .d90 ≠ [] ∧
    rotateMapBody (rotateMapBody m .d90) .d90 ≠ [] ∧
    rotateMapBody (rotateMapBody (rotateMapBody m .d90) .d90) .d90 ≠ [] := by
  have hmlen : m.length ≠ 0 := fun h => hR (List.length_eq_zero.mp h)
  have h1 : rotateMapBody m .d90 ≠ [] := by
    intro h
    apply hC
    rw [← length_rotate90 m, h]
    rfl
  have h1head : ((rotateMapBody m .d90).headD []).length = m.length :=
    headD_length h1 (rows_rotate90 m)
  have h2 : rotateMapBody (rotateMapBody m .d90) .d90 ≠ [] := by
    intro h
    apply hmlen
    rw [← h1head, ← length_rotate90 (rotateMapBody m .d90), h]
    rfl
  have h2head : ((rotateMapBody (rotateMapBody m .d90) .d90).headD []).length =
      (rotateMapBody m .d90).length :=
    headD_length h2 (rows_rotate90 (rotateMapBody m .d90))
  have h3 : rotateMapBody (rotateMapBody (rotateMapBody m .d90) .d90) .d90 ≠ [] := by
    intro h
    apply hC
    rw [← length_rotate90 m, ← h2head,
      ← length_rotate90 (rotateMapBody (rotateMapBody m .d90) .d90), h]
    rfl
  exact ⟨h1, h2, h3⟩

/-- C3: on a rectangular, non-empty grid, applying `rotate` with angle
90 four times in succession succeeds at every step and yields a grid
equal to the original grid. -/
theorem rotate_four_quarter_turns_id (m : Map2048)
    (hrect : validateMapIsNByM m = true)
    (hR : m ≠ []) (hC : (m.headD []).length ≠ 0) :
    ∃ r1 r2 r3, rotateMapCounterClockwise m .d90 = .ok r1 ∧
      rotateMapCounterClockwise r1 .d90 = .ok r2 ∧
      rotateMapCounterClockwise r2 .d90 = .ok r3 ∧
      rotateMapCounterClockwise r3 .d90 = .ok m := by
  obtain ⟨h1, h2, h3⟩ := rotateMapBody_chain_ne_nil m hR hC
  refine ⟨_, _, _, rotate_ok hR .d90, rotate_ok h1 .d90, rotate_ok h2 .d90, ?_⟩
  rw [rotate_ok h3 .d90, rotateMapBody_four_quarter_turns m hrect hR hC]

/-- Witness for C3 on a concrete 2×3 grid. -/
theorem rotate_four_quarter_turns_id_witness :
    ∃ r1 r2 r3,
      rotateMapCounterClockwise
        [[some 1, some 2, some 3], [some 4, some 5, some 6]] .d90 = .ok r1 ∧
      rotateMapCounterClockwise r1 .d90 = .ok r2 ∧
      rotateMapCounterClockwise r2 .d90 = .ok r3 ∧
      rotateMapCounterClockwise r3 .d90 =
        .ok [[some 1, some 2, some 3], [some 4, some 5, some 6]] :=
  rotate_four_quarter_turns_id [[some 1, some 2, some 3], [some 4, some 5, some 6]]
    (by decide) (by decide) (by decide)

/-- C9: `collapseRowLeft`'s `changed` flag is true iff the output row
differs from the input row at some position; an all-empty row and a
gap-free row with no equal adjacent pair both come back identical with
`changed = false`. -/
theorem collapseRowLeft_changed_iff :
    (∀ row : List Cell,
      (moveRowLeft row).isMoved = true ↔ (moveRowLeft row).result ≠ row) ∧
    moveRowLeft [none, none, none, none] =
      { result := [none, none, none, none], isMoved := false } ∧
    ∀ row : List Cell, (∀ c ∈ row, c ≠ none) →
      List.Chain' (fun x y : Cell => x ≠ y) row →
      moveRowLeft row = { result := row, isMoved := false } :=
  ⟨moveRowLeft_isMoved_iff, by decide, moveRowLeft_no_change⟩

/-- Witness for C9 at the concrete gap-free pair-free row `[2,4,2]`. -/
theorem collapseRowLeft_changed_iff_witness :
    moveRowLeft [some 2, some 4, some 2] =
      { result := [some 2, some 4, some 2], isMoved := false } :=
  collapseRowLeft_changed_iff.2.2 [some 2, some 4, some 2]
    (by decide) (by simp)

/-- C2 (counterexample to the claim as stated): on a state whose grid
already contains the 128 tile, a direction whose move engine reports
`isMoved = true` does not round-trip: `applyMove` is gated by the
game-over predicate and does nothing, and the immediate `undo` then
pops an older snapshot, so the current grid is not the pre-move grid. -/
theorem applyMove_undo_roundtrip_cex :
    moveMapIn2048Rule [[some 128, some 2, some 2, none]] Direction.left =
      .ok { result := [[some 128, some 4, none, none]], isMoved := true } ∧
    (handleUndo (applyMove 0 true
      { map := [[some 128, some 2, some 2, none]], undoHistory := [[[some 4]]] }
      Direction.left)).map ≠ [[some 128, some 2, some 2, none]] :=
  ⟨rfl, by decide⟩

/-- C2 (amended): for every state whose current grid does not satisfy
the game-over predicate and every direction whose move reports
`didChange = true`, `applyMove` followed immediately by `undo` restores
the exact grid present before the move. -/
theorem applyMove_undo_roundtrip (k : Nat) (coin : Bool) (s : GameState)
    (d : Direction) (r : MoveResult)
    (hover : checkGameOver s.map = false)
    (hmove : moveMapIn2048Rule s.map d = .ok r)
    (hmoved : r.isMoved = true) :
    (handleUndo (applyMove k coin s d)).map = s.map := by
  unfold applyMove
  simp only [hover, Bool.false_eq_true, if_false, hmove, hmoved, if_true]
  unfold handleUndo
  simp [List.getD_eq_getElem?_getD, List.getElem?_concat_length]

/-- Witness for the amended C2 on a concrete changing move. -/
theorem applyMove_undo_roundtrip_witness :
    (handleUndo (applyMove 0 true
      { map := [[some 2, some 2], [none, none]], undoHistory := [] }
      Direction.left)).map = [[some 2, some 2], [none, none]] :=
  applyMove_undo_roundtrip 0 true _ Direction.left
    { result := [[some 4, none], [none, none]], isMoved := true }
    (by decide) rfl (by decide)

/-- The Move Engine succeeds and preserves shape on every rectangular
grid with non-empty rows and columns, for every direction: the forward
rotation of a non-empty grid is non-empty again, so neither
`map[0].length` read throws. -/
lemma moveMap_ok_shape (m : Map2048) (d : Direction)
    (hrect : validateMapIsNByM m = true) (hm : m ≠ [])
    (hC : (m.headD []).length ≠ 0) :
    ∃ r, moveMapIn2048Rule m d = .ok r ∧
      r.result.length = m.length ∧
      ∀ row ∈ r.result, row.length = (m.headD []).length := by
  have hrows : ∀ row ∈ m, row.length = (m.headD []).length := fun row hrow => by
    simpa using List.all_eq_true.mp hrect row hrow
  have hmlen : m.length ≠ 0 := fun h => hm (List.length_eq_zero.mp h)
  unfold moveMapIn2048Rule
  rw [if_neg (by simp [hrect])]
  cases d with
  | up =>
    have h1rows := moveLeft_rows (rows_rotate90 m)
    have h1len : (moveLeft (rotateMapBody m .d90)).result.length =
        (m.headD []).length := by
      rw [moveLeft_length, length_rotate90]
    have h1ne : (moveLeft (rotateMapBody m .d90)).result ≠ [] := by
      intro hnil
      rw [hnil, List.length_nil] at h1len
      exact hC h1len.symm
    simp only [rotateDegreeMap, revertDegreeMap, rotate_ok hm, rotate_ok h1ne]
    refine ⟨_, rfl, ?_, ?_⟩
    · rw [length_rotate270]
      exact headD_length h1ne h1rows
    · intro row hrow
      rw [rows_rotate270 _ row hrow, h1len]
  | down =>
    have h1rows := moveLeft_rows (rows_rotate270 m)
    have h1len : (moveLeft (rotateMapBody m .d270)).result.length =
        (m.headD []).length := by
      rw [moveLeft_length, length_rotate270]
    have h1ne : (moveLeft (rotateMapBody m .d270)).result ≠ [] := by
      intro hnil
      rw [hnil, List.length_nil] at h1len
      exact hC h1len.symm
    simp only [rotateDegreeMap, revertDegreeMap, rotate_ok hm, rotate_ok h1ne]
    refine ⟨_, rfl, ?_, ?_⟩
    · rw [length_rotate90]
      exact headD_length h1ne h1rows
    · intro row hrow
      rw [rows_rotate90 _ row hrow, h1len]
  | right =>
    have h1rows := moveLeft_rows (rows_rotate180 m)
    have h1len : (moveLeft (rotateMapBody m .d180)).result.length =
        m.length := by
      rw [moveLeft_length, length_rotate180]
    have h1ne : (moveLeft (rotateMapBody m .d180)).result ≠ [] := by
      intro hnil
      rw [hnil, List.length_nil] at h1len
      exact hmlen h1len.symm
    simp only [rotateDegreeMap, revertDegreeMap, rotate_ok hm, rotate_ok h1ne]
    refine ⟨_, rfl, ?_, ?_⟩
    · rw [length_rotate180]
      exact h1len
    · intro row hrow
      rw [rows_rotate180 _ row hrow]
      exact headD_length h1ne h1rows
  | left =>
    have h1len : (moveLeft (rotateMapBody m .d0)).result.length = m.length := by
      rw [moveLeft_length, rotate_d0]
    have h1ne : (moveLeft (rotateMapBody m .d0)).result ≠ [] := by
      intro hnil
      rw [hnil, List.length_nil] at h1len
      exact hmlen h1len.symm
    simp only [rotateDegreeMap, revertDegreeMap, rotate_ok hm, rotate_ok h1ne]
    refine ⟨_, rfl, ?_, ?_⟩
    · rw [rotate_d0, rotate_d0]
      exact moveLeft_length m
    · rw [rotate_d0, rotate_d0]
      exact moveLeft_rows hrows

/-- C4 (counterexample to the claim as stated): the grid `[[], []]` is
non-empty and rectangular (both rows have the first row's length, zero),
yet `move` with direction up raises: the forward 90° rotation yields the
empty grid, and the back-rotation then reads `map[0].length` on it — the
TypeError path, reached without any rectangularity violation. -/
theorem move_error_iff_not_rectangular_cex :
    (∀ row ∈ ([[], []] : Map2048),
      row.length = (([[], []] : Map2048).headD []).length) ∧
    ([[], []] : Map2048) ≠ [] ∧
    moveMapIn2048Rule [[], []] Direction.up =
      .error "TypeError: cannot read length of map[0]" :=
  ⟨by decide, by decide, rfl⟩

/-- C4 (amended): on a non-empty grid whose rows are non-empty (at
least one column), `move` raises iff the grid is not rectangular, i.e.
iff some row's length differs from the first row's length; on such a
rectangular grid it never raises. -/
theorem move_error_iff_not_rectangular (m : Map2048) (d : Direction)
    (hm : m ≠ []) (hC : (m.headD []).length ≠ 0) :
    (∃ e, moveMapIn2048Rule m d = .error e) ↔
      ∃ row ∈ m, row.length ≠ (m.headD []).length := by
  by_cases h : validateMapIsNByM m
  · obtain ⟨r, hr, -, -⟩ := moveMap_ok_shape m d h hm hC
    constructor
    · rintro ⟨e, he⟩
      rw [hr] at he
      cases he
    · rintro ⟨row, hrow, hne⟩
      exact absurd (by simpa using List.all_eq_true.mp h row hrow) hne
  · constructor
    · intro _
      by_contra hcon
      push_neg at hcon
      exact h (List.all_eq_true.mpr (fun row hrow => by simpa using hcon row hrow))
    · intro _
      refine ⟨"Map is not N by M", ?_⟩
      unfold moveMapIn2048Rule
      rw [if_pos (by simp [Bool.eq_false_iff.mpr h])]

/-- Witness for the amended C4 on a concrete ragged grid. -/
theorem move_error_iff_not_rectangular_witness :
    (∃ e, moveMapIn2048Rule [[some 2], [some 2, some 2]] Direction.up = .error e) ↔
      ∃ row ∈ [[some (2:Int)], [some 2, some 2]], row.length ≠
        ([[some (2:Int)], [some 2, some 2]].headD []).length :=
  move_error_iff_not_rectangular [[some 2], [some 2, some 2]] Direction.up
    (by decide) (by decide)

/-- C5: the game-over predicate holds iff some cell of the grid is the
win-threshold tile 128, and (being recomputed from the current grid) the
same equivalence holds for the grid current after any `undo`. -/
theorem isOver_iff_contains_threshold :
    (∀ m : Map2048, checkGameOver m = true ↔ ∃ row ∈ m, some (128 : Int) ∈ row) ∧
    (∀ s : GameState, checkGameOver (handleUndo s).map = true ↔
      ∃ row ∈ (handleUndo s).map, some (128 : Int) ∈ row) := by
  have h : ∀ m : Map2048, checkGameOver m = true ↔ ∃ row ∈ m, some (128 : Int) ∈ row := by
    intro m
    simp [checkGameOver, List.mem_flatten]
  exact ⟨h, fun s => h _⟩

/-- C6: a move whose engine reports `isMoved = false` leaves the whole
state unchanged: same current grid, no history push, no spawned tile. -/
theorem applyMove_noop_of_not_moved (k : Nat) (coin : Bool) (s : GameState)
    (d : Direction) (r : MoveResult)
    (hmove : moveMapIn2048Rule s.map d = .ok r) (hnot : r.isMoved = false) :
    applyMove k coin s d = s := by
  unfold applyMove
  by_cases hover : checkGameOver s.map
  · simp [hover]
  · simp [hover, hmove, hnot]

/-- Witness for C6: sliding an already-left-packed row into the wall. -/
theorem applyMove_noop_of_not_moved_witness :
    applyMove 0 true { map := [[some 2, none]], undoHistory := [] } Direction.left =
      { map := [[some 2, none]], undoHistory := [] } :=
  applyMove_noop_of_not_moved 0 true _ Direction.left
    { result := [[some 2, none]], isMoved := false } rfl (by decide)

/-- C8: while the game-over predicate holds on the current grid,
`applyMove` is a no-op for every direction: the state (grid and
history) is returned unchanged. -/
theorem applyMove_noop_when_over (k : Nat) (coin : Bool) (s : GameState)
    (d : Direction) (hover : checkGameOver s.map = true) :
    applyMove k coin s d = s := by
  unfold applyMove
  simp [hover]

/-- Witness for C8 on a grid holding the 128 tile, with a direction
that would otherwise change the grid. -/
theorem applyMove_noop_when_over_witness :
    applyMove 0 true { map := [[some 128, some 2, some 2, none]], undoHistory := [] }
      Direction.left =
      { map := [[some 128, some 2, some 2, none]], undoHistory := [] } :=
  applyMove_noop_when_over 0 true _ Direction.left (by decide)

/-- C7: `spawn` changes at most one cell; any changed cell was empty
and receives 2 or 4; row count and row lengths are preserved; with
exactly one empty cell the tile lands there and nothing else changes;
with zero empty cells the grid is returned unchanged. -/
theorem spawn_frame_conditions (k : Nat) (coin : Bool) (m : Map2048) :
    (emptyCells m = [] → addRandomTile k coin m = m) ∧
    ((addRandomTile k coin m).length = m.length ∧
      ∀ a, ((addRandomTile k coin m).getD a []).length = (m.getD a []).length) ∧
    (∀ a b, get2 (addRandomTile k coin m) a b ≠ get2 m a b →
      get2 m a b = none ∧
        (get2 (addRandomTile k coin m) a b = some 2 ∨
         get2 (addRandomTile k coin m) a b = some 4)) ∧
    (∀ a b a' b', get2 (addRandomTile k coin m) a b ≠ get2 m a b →
      get2 (addRandomTile k coin m) a' b' ≠ get2 m a' b' → a = a' ∧ b = b') ∧
    (∀ i j, emptyCells m = [(i, j)] →
      get2 (addRandomTile k coin m) i j = some (if coin then 2 else 4) ∧
      ∀ a b, ¬(a = i ∧ b = j) → get2 (addRandomTile k coin m) a b = get2 m a b) := by
  by_cases hemp : emptyCells m = []
  · have heq := addRandomTile_of_no_empty k coin m hemp
    refine ⟨fun _ => heq, by rw [heq]; exact ⟨rfl, fun a => rfl⟩, ?_, ?_, ?_⟩
    · intro a b hne
      rw [heq] at hne
      exact absurd rfl hne
    · intro a b a' b' hne _
      rw [heq] at hne
      exact absurd rfl hne
    · intro i j hsingle
      rw [hemp] at hsingle
      cases hsingle
  · obtain ⟨p, hp, heq⟩ := addRandomTile_eq_setCell k coin m hemp
    obtain ⟨i0, j0⟩ := p
    obtain ⟨hi0, hj0, hcell⟩ := (mem_emptyCells m (i0, j0)).mp hp
    have hchar : ∀ a b, get2 (addRandomTile k coin m) a b ≠ get2 m a b →
        a = i0 ∧ b = j0 := by
      intro a b hne
      rw [heq, get2_setCell] at hne
      by_cases hcond : a = i0 ∧ b = j0 ∧ b < (m.getD a []).length
      · exact ⟨hcond.1, hcond.2.1⟩
      · rw [if_neg hcond] at hne
        exact absurd rfl hne
    have hval : get2 (addRandomTile k coin m) i0 j0 = some (if coin then 2 else 4) := by
      rw [heq, get2_setCell, if_pos ⟨rfl, rfl, hj0⟩]
    refine ⟨fun h => absurd h hemp, ?_, ?_, ?_, ?_⟩
    · rw [heq]
      refine ⟨length_setCell m i0 j0 _, fun a => ?_⟩
      rw [getD_setCell_row]
      exact List.length_mapIdx
    · intro a b hne
      obtain ⟨rfl, rfl⟩ := hchar a b hne
      refine ⟨hcell, ?_⟩
      rw [hval]
      cases coin
      · right; rfl
      · left; rfl
    · intro a b a' b' h1 h2
      obtain ⟨rfl, rfl⟩ := hchar a b h1
      obtain ⟨h1', h2'⟩ := hchar a' b' h2
      exact ⟨h1'.symm, h2'.symm⟩
    · intro i j hsingle
      have hpij : (i0, j0) = (i, j) := by
        rw [hsingle] at hp
        simpa using hp
      obtain ⟨rfl, rfl⟩ : i0 = i ∧ j0 = j := by simpa using hpij
      refine ⟨hval, ?_⟩
      intro a b hab
      rw [heq, get2_setCell, if_neg (by tauto)]

/-- Witness for C7 on a grid whose only empty cell is `(0, 1)`. -/
theorem spawn_frame_conditions_witness :
    get2 (addRandomTile 5 true [[some 2, none], [some 4, some 8]]) 0 1 =
      some (if true then 2 else 4) ∧
    get2 (addRandomTile 5 true [[some 2, none], [some 4, some 8]]) 1 0 =
      get2 [[some 2, none], [some 4, some 8]] 1 0 :=
  ⟨((spawn_frame_conditions 5 true _).2.2.2.2 0 1 (by decide)).1,
   ((spawn_frame_conditions 5 true _).2.2.2.2 0 1 (by decide)).2 1 0 (by decide)⟩

/-- C10: on a rectangular non-empty R×C grid, `move` succeeds for every
direction and its result grid has exactly R rows, each of length C. -/
theorem move_preserves_shape (m : Map2048) (d : Direction)
    (hrect : validateMapIsNByM m = true) (hm : m ≠ [])
    (hC : (m.headD []).length ≠ 0) :
    ∃ r, moveMapIn2048Rule m d = .ok r ∧
      r.result.length = m.length ∧
      ∀ row ∈ r.result, row.length = (m.headD []).length :=
  moveMap_ok_shape m d hrect hm hC

/-- Witness for C10 on a concrete 2×3 grid moved up. -/
theorem move_preserves_shape_witness :
    ∃ r, moveMapIn2048Rule [[some 2, some 2, none], [none, some 4, some 4]]
        Direction.up = .ok r ∧
      r.result.length = [[some (2:Int), some 2, none], [none, some 4, some 4]].length ∧
      ∀ row ∈ r.result, row.length =
        ([[some (2:Int), some 2, none], [none, some 4, some 4]].headD []).length :=
  move_preserves_shape _ Direction.up (by decide) (by decide) (by decide)

end Game2048
